import Mathlib

/-!
Verification of the LCR report-distribution pipeline (`lcr.py`) against its
natural-language specification.

The script is a single sequential Python program.  We give a shallow embedding:

* Python `dict`s keyed by strings become association lists (`Dict.find` /
  `Dict.insert` mirror lookup and in-place update, last write wins, insertion
  order preserved).
* Python string operations (`strip`, `split`, `endswith`, `", ".join`,
  `os.path.join`) are re-implemented over the character list backing `String`.
  The script targets Windows (it hardcodes a `"\x5c"` separator when renaming
  attachments, line 374), so the path separator everywhere is the backslash.
* Python exceptions become `Except PyError`: an uncaught exception aborts the
  run, which is exactly `Except.error` propagation.  Partial filesystem effects
  performed before an abort are not needed by any claim and are discarded with
  the error.
* The filesystem is a pair of membership functions (folders and file
  contents); directory walks (`os.walk`) are modelled by an explicit `Walk`
  structure listing the root files and the unit folders with their files,
  matching the flat tree the script creates.
* The external collaborators (operator pressing Enter, the SMTP session) are
  oracles: the operator supplies the sequence of filesystem states seen at
  each reconciliation re-scan, and the mail transport is a function from the
  recipient string to an outcome.
-/

/-! ## Python string primitives -/

/-- Whitespace-stripping of both ends, Python `str.strip()`. -/
def pyStrip (s : String) : String :=
  ⟨((s.data.dropWhile Char.isWhitespace).reverse.dropWhile Char.isWhitespace).reverse⟩

/-- Truncate at the first dot: Python `s.split(".")[0]`, used to print
spreadsheet floats as integers (never rounds). -/
def truncDot (s : String) : String :=
  ⟨s.data.takeWhile (fun c => c ≠ '.')⟩

/-- Python `s.endswith(suffix)`. -/
def pyEndsWith (s suffix : String) : Bool :=
  suffix.data.isSuffixOf s.data

/-- Python `sep.join(parts)`. -/
def pyJoin (sep : String) : List String → String
  | [] => ""
  | [x] => x
  | x :: y :: rest => x ++ sep ++ pyJoin sep (y :: rest)

/-- Fuelled splitting worker for `pySplitOn`; the fuel is an upper bound on
the number of characters consumed, so `length + 1` always suffices. -/
def splitFuel (sep : List Char) : Nat → List Char → List Char → List (List Char)
  | 0, l, acc => [acc.reverse ++ l]
  | _ + 1, [], acc => [acc.reverse]
  | fuel + 1, c :: rest, acc =>
    if sep.isPrefixOf (c :: rest) then
      acc.reverse :: splitFuel sep fuel ((c :: rest).drop sep.length) []
    else
      splitFuel sep fuel rest (c :: acc)

/-- Python `s.split(sep)` for a non-empty separator, left to right,
non-overlapping. -/
def pySplitOn (s sep : String) : List String :=
  (splitFuel sep.data (s.data.length + 1) s.data []).map (fun l => ⟨l⟩)

/-- Path concatenation, `os.path.join` on the Windows platform the script
targets (the script itself hardcodes the backslash at line 374). -/
def pathJoin (a b : String) : String :=
  a ++ "\x5c" ++ b

/-- Python `os.path.split(p)[1]` / `os.path.basename` (Windows separator). -/
def pyBasename (p : String) : String :=
  (pySplitOn p "\x5c").getLastD ""

/-- An apostrophe, used in the subject line the script builds. -/
def apos : String :=
  ⟨[Char.ofNat 39]⟩

/-! ## Python dictionaries as association lists -/

/-- Dictionary lookup: first entry with the given key. -/
def Dict.find {α : Type} : List (String × α) → String → Option α
  | [], _ => none
  | (k', v) :: t, k => if k = k' then some v else Dict.find t k

/-- Dictionary update, Python `d[k] = v`: replaces the value in place when the
key is present (keeping its position), appends otherwise. -/
def Dict.insert {α : Type} (k : String) (v : α) : List (String × α) → List (String × α)
  | [] => [(k, v)]
  | (k', v') :: t => if k = k' then (k, v) :: t else (k', v') :: Dict.insert k v t

/-! ## Exceptions of the script -/

/-- Exceptions the script can raise.  `missingFile` and `missingColumn` are
the two error classes `lcr.py` itself defines (`MissingFileError`,
`MissingColumnError`); the rest are Python builtins it lets propagate. -/
inductive PyError : Type
  | keyError (k : String)
  | indexError
  | fileNotFound (p : String)
  | unboundLocal (name : String)
  | missingFile (file path : String)
  | missingColumn (col sheet : String)
deriving DecidableEq, Repr

/-- Whether an error is one of the named error classes defined by the module
itself (as opposed to a propagated Python builtin). -/
def isModuleNamedError : PyError → Bool
  | .missingFile _ _ => true
  | .missingColumn _ _ => true
  | _ => false

/-- Lookup in a Python dict, raising `KeyError` on a missing key. -/
def pyGet {α : Type} (d : List (String × α)) (k : String) : Except PyError α :=
  match Dict.find d k with
  | some v => .ok v
  | none => .error (.keyError k)

/-- A record: one spreadsheet row, a Python dict from column name to cell
text. -/
abbrev StrDict := List (String × String)

/-! ## Filesystem model -/

/-- The staging area: which directories exist, and the contents of each
file.  Both are total functions so that extensional equality of two states is
provable. -/
structure FS where
  folders : String → Bool
  files : String → Option String

/-- Python `os.mkdir` wrapped in `try/except FileExistsError: pass`
(`prepEmailFolders`, lines 274-277): create the directory, silently succeed
if it already exists. -/
def FS.mkdirp (fs : FS) (p : String) : FS :=
  { fs with folders := fun q => q == p || fs.folders q }

/-- Write (or overwrite) a file. -/
def FS.write (fs : FS) (p c : String) : FS :=
  { fs with files := fun q => if q == p then some c else fs.files q }

/-- Read a file, `FileNotFoundError` when absent. -/
def pyRead (fs : FS) (p : String) : Except PyError String :=
  match fs.files p with
  | some c => .ok c
  | none => .error (.fileNotFound p)

/-- Python `os.rename`: moves the contents from `src` to `dst`, raising when
`src` does not exist. -/
def fsRename (fs : FS) (src dst : String) : Except PyError FS :=
  match fs.files src with
  | none => .error (.fileNotFound src)
  | some c =>
    .ok { fs with files := fun q => if q == dst then some c else if q == src then none else fs.files q }

/-! ## getRecipients (lcr.py lines 325-339) -/

/-- Recipient computation of `getRecipients`: build the list
mother-then-father of the non-empty parent addresses; when the list has
exactly two identical entries return the single address, otherwise join the
list with a comma-space. -/
def getRecipients (mother father : String) : String :=
  let recipients : List String :=
    (if mother ≠ "" then [mother] else []) ++ (if father ≠ "" then [father] else [])
  match recipients with
  | [a, b] => if a = b then a else pyJoin ", " [a, b]
  | rs => pyJoin ", " rs

/-- The dict-reading wrapper around `getRecipients` as the script calls it:
`test_data["MotherEmail"]` and `test_data["FatherEmail"]` are dict lookups. -/
def getRecipientsOf (st : StrDict) : Except PyError String :=
  match pyGet st "MotherEmail" with
  | .error e => .error e
  | .ok m =>
    match pyGet st "FatherEmail" with
    | .error e => .error e
    | .ok f => .ok (getRecipients m f)

/-- The claim-side recipient function, following the specification text
word for word: include mother iff non-empty, father iff non-empty, collapse
two identical addresses, join distinct included addresses with a
comma-space. -/
def getRecipientsSpec (mother father : String) : String :=
  if mother = "" then
    (if father = "" then "" else father)
  else if father = "" then
    mother
  else if mother = father then
    mother
  else
    mother ++ ", " ++ father

/-! ## Spreadsheet loading (lcr.py lines 183-242) -/

/-- One sheet of a workbook: the header row and the data rows, every cell
already a string (the Python code applies `str(...)` to each cell). -/
structure Sheet where
  header : List String
  rows : List (List String)

/-- Required columns of the two test-record spreadsheets
(`checkLCRSpreadsheet`, lines 188-189). -/
def REQUIRED_COLUMNS : List String :=
  ["FirstName", "LastName", "Subject", "Type", "Time",
   "Score", "FatherEmail", "MotherEmail", "Passing"]

/-- Column check of `checkLCRSpreadsheet`: raises `MissingColumnError` (one of
the error classes the module defines) at the first required column absent
from the raw header row. -/
def checkLCRSpreadsheet (sheetName : String) (sheet : Sheet) : Except PyError Unit :=
  match REQUIRED_COLUMNS.find? (fun col => !(sheet.header.contains col)) with
  | some col => .error (.missingColumn col sheetName)
  | none => .ok ()

/-- A key-column slot of `loadSpreadsheet`: the Python code starts from the
column names and replaces each by the matching column number; a slot a header
never matches stays a name. -/
inductive KeyCol : Type
  | name (s : String)
  | idx (n : Nat)
deriving DecidableEq, Repr

/-- Key-column resolution of `loadSpreadsheet` (lines 218-222): scan the
columns left to right and replace each still-unresolved name slot whose
stripped header cell matches; a slot already holding a column number is left
alone (in Python a string never equals an int), so the first matching column
wins. -/
def resolveKeyCols (header : List String) (keys : List String) : List KeyCol :=
  (List.range header.length).foldl
    (fun kcs col =>
      kcs.map (fun kc =>
        match kc with
        | .name s => if pyStrip (header.getD col "") = s then .idx col else .name s
        | .idx n => .idx n))
    (keys.map .name)

/-- The per-row key parts (lines 230-236): a resolved slot contributes the
stripped cell of its column, an unresolved slot contributes the column name
itself. -/
def rowKeyParts (kcs : List KeyCol) (row : List String) : List String :=
  kcs.map (fun kc =>
    match kc with
    | .name s => s
    | .idx c => pyStrip (row.getD c ""))

/-- The record built from one row (lines 237-238): every column is copied,
header name and cell both stripped; a duplicated header keeps the last
column. -/
def rowRecord (header row : List String) : StrDict :=
  (List.range header.length).foldl
    (fun d col => Dict.insert (pyStrip (header.getD col "")) (pyStrip (row.getD col "")) d)
    []

/-- The key under which a row is filed (lines 239-242): the space-join of the
key parts, with the 1-based row ordinal appended when `include_row_in_key`
is set and a final strip applied when it is not. -/
def rowKeyOf (kcs : List KeyCol) (includeRow : Bool) (i : Nat) (row : List String) : String :=
  let keyStr := pyJoin " " (rowKeyParts kcs row)
  if includeRow then keyStr ++ " " ++ Nat.repr i else pyStrip keyStr

/-- Row loop of `loadSpreadsheet` (lines 229-242): walk the data rows keeping
the 1-based row counter, inserting each record into the accumulating dict;
an insert with an already-present key silently overwrites. -/
def loadRows (kcs : List KeyCol) (header : List String) (includeRow : Bool) :
    Nat → List (List String) → List (String × StrDict) → List (String × StrDict)
  | _, [], d => d
  | i, row :: rest, d =>
    loadRows kcs header includeRow (i + 1) rest
      (Dict.insert (rowKeyOf kcs includeRow i row) (rowRecord header row) d)

/-- `loadSpreadsheet(spreadsheet, sheet_index, keys, dictionary,
include_row_in_key)`: the sheet has already been selected; the result is the
input dictionary extended (destructively in Python) with one record per data
row. -/
def loadSpreadsheet (sheet : Sheet) (keys : List String) (d : List (String × StrDict))
    (includeRow : Bool) : List (String × StrDict) :=
  loadRows (resolveKeyCols sheet.header keys) sheet.header includeRow 1 sheet.rows d

/-! ## Join against the reference totals (assignTestTotals, lines 245-254) -/

/-- Copy every field of the matched reference-total record into the student
record, in insertion order, Python `for t in totals[key].keys(): student[t] =
totals[key][t]`. -/
def copyFields (tot : StrDict) (st : StrDict) : StrDict :=
  tot.foldl (fun d kv => Dict.insert kv.1 kv.2 d) st

/-- The join key of one record, `student["Subject"].strip() + " " +
student["Type"].strip()` (line 252), as a total function of the record. -/
def totalsKeyOf (st : StrDict) : String :=
  pyStrip ((Dict.find st "Subject").getD "") ++ " " ++ pyStrip ((Dict.find st "Type").getD "")

/-- Enrich one record: look the join key up in the totals dict — a plain
Python subscript, so a missing key raises the builtin `KeyError` — and copy
every field across. -/
def enrichOne (totals : List (String × StrDict)) (st : StrDict) : Except PyError StrDict :=
  match pyGet st "Subject" with
  | .error e => .error e
  | .ok sub =>
    match pyGet st "Type" with
    | .error e => .error e
    | .ok ty =>
      match pyGet totals (pyStrip sub ++ " " ++ pyStrip ty) with
      | .error e => .error e
      | .ok tot => .ok (copyFields tot st)

/-- `assignTestTotals(totals, tests_taken)`: enrich every record, in dict
order; the first missing reference total aborts with its `KeyError`. -/
def assignTestTotals (totals : List (String × StrDict)) :
    List (String × StrDict) → Except PyError (List (String × StrDict))
  | [] => .ok []
  | (s, st) :: rest =>
    match enrichOne totals st with
    | .error e => .error e
    | .ok st1 =>
      match assignTestTotals totals rest with
      | .error e => .error e
      | .ok rest1 => .ok ((s, st1) :: rest1)

/-! ## Staging (prepEmailFolders, lines 257-285) -/

/-- The email template: literal text interleaved with named placeholders. -/
inductive TPart : Type
  | lit (s : String)
  | hole (name : String)
deriving DecidableEq, Repr

/-- Python `string.Template.substitute(student)`: replace every placeholder by
the record field of that name; an unresolved placeholder raises `KeyError`
at render time. -/
def render (st : StrDict) : List TPart → Except PyError String
  | [] => .ok ""
  | .lit s :: rest =>
    match render st rest with
    | .error e => .error e
    | .ok r => .ok (s ++ r)
  | .hole n :: rest =>
    match pyGet st n with
    | .error e => .error e
    | .ok v =>
      match render st rest with
      | .error e => .error e
      | .ok r => .ok (v ++ r)

/-- The columns printed as integers (line 264). -/
def INTEGER_COLUMNS : List String :=
  ["Time", "suggestedTime", "Score", "totalMarks"]

/-- The in-place truncation loop `for k in INTEGER_COLUMNS: student[k] =
student[k].split(".")[0]` (lines 279-280). -/
def truncCols : List String → StrDict → Except PyError StrDict
  | [], st => .ok st
  | k :: ks, st =>
    match pyGet st k with
    | .error e => .error e
    | .ok v => truncCols ks (Dict.insert k (truncDot v) st)

/-- The staging folder name of a record under key `s` (lines 270-272),
as a total function of the record. -/
def folderNameOf (s : String) (st : StrDict) : String :=
  pyStrip ((Dict.find st "FirstName").getD "") ++ " " ++
  pyStrip ((Dict.find st "LastName").getD "") ++ " Level " ++
  pyStrip ((Dict.find st "Type").getD "") ++ " --- " ++ s

/-- The staging folder path of a record under the target directory. -/
def folderPathOf (dir s : String) (st : StrDict) : String :=
  pathJoin dir (folderNameOf s st)

/-- Stage one record (loop body of `prepEmailFolders`): skip entirely when
the passing flag is the string `"No"`; otherwise create the folder (silently
reusing an existing one), truncate the integer columns in place, render the
template against the mutated record and write the body as `email.html`
inside the folder.  The third component reports the rendered body path
(`none` when the record was skipped), so that re-rendering is observable. -/
def prepOne (templ : List TPart) (dir : String) (fs : FS) (s : String) (st : StrDict) :
    Except PyError (FS × StrDict × Option String) :=
  match pyGet st "Passing" with
  | .error e => .error e
  | .ok passing =>
    if passing = "No" then .ok (fs, st, none)
    else
      let folderPath := folderPathOf dir s st
      let fs1 := fs.mkdirp folderPath
      match truncCols INTEGER_COLUMNS st with
      | .error e => .error e
      | .ok st1 =>
        match render st1 templ with
        | .error e => .error e
        | .ok body =>
          let emailPath := pathJoin folderPath "email.html"
          .ok (fs1.write emailPath body, st1, some emailPath)

/-- `prepEmailFolders(tests_taken, template_email, target_directory)`: stage
every record in dict order.  The returned record list models the in-place
mutation of `tests_taken`; the returned path list collects every body the
run rendered. -/
def prepEmailFolders (templ : List TPart) (dir : String) :
    List (String × StrDict) → FS → Except PyError (FS × List (String × StrDict) × List String)
  | [], fs => .ok (fs, [], [])
  | (s, st) :: rest, fs =>
    match prepOne templ dir fs s st with
    | .error e => .error e
    | .ok (fs1, st1, r) =>
      match prepEmailFolders templ dir rest fs1 with
      | .error e => .error e
      | .ok (fs2, rest1, rs) => .ok (fs2, (s, st1) :: rest1, r.toList ++ rs)

/-- The join followed by staging, as `lcr` sequences them (lines 89-93): a
join failure propagates before any staging runs. -/
def joinThenStage (totals tests : List (String × StrDict)) (templ : List TPart)
    (dir : String) (fs : FS) : Except PyError (FS × List (String × StrDict) × List String) :=
  match assignTestTotals totals tests with
  | .error e => .error e
  | .ok t1 => prepEmailFolders templ dir t1 fs

/-! ## Attachment reconciliation (checkPDFs, lines 288-322) -/

/-- One snapshot of the working tree as `os.walk` sees it: the files directly
under the root, and each unit folder with its files (staging creates a flat
tree, so one level suffices). -/
structure Walk where
  rootFiles : List String
  units : List (String × List String)

/-- Count of deliverable files, `len([f for f in files if
f.endswith(".pdf")])`. -/
def pdfCount (files : List String) : Nat :=
  (files.filter (fun f => pyEndsWith f ".pdf")).length

/-- The blocking condition one scan can report, naming the folder and the
reason. -/
inductive Violation : Type
  | rootHasPdfs (count : Nat)
  | noPdf (folder : String)
  | multiplePdfs (folder : String)
deriving DecidableEq, Repr

/-- Scan of the unit folders: skip folders on the exception list, stop at the
first folder holding zero or more than one deliverable. -/
def scanUnits (exceptions : List String) : List (String × List String) → Option Violation
  | [] => none
  | (p, fls) :: rest =>
    if p ∈ exceptions then scanUnits exceptions rest
    else if pdfCount fls = 0 then some (.noPdf p)
    else if 1 < pdfCount fls then some (.multiplePdfs p)
    else scanUnits exceptions rest

/-- One full scan of the `checkPDFs` while-loop body: the walk visits the
root row first (skipped when listed as an exception; any deliverable there is
a violation), then every unit folder. -/
def scanWalk (target : String) (exceptions : List String) (w : Walk) : Option Violation :=
  if target ∈ exceptions then scanUnits exceptions w.units
  else if 0 < pdfCount w.rootFiles then some (.rootHasPdfs (pdfCount w.rootFiles))
  else scanUnits exceptions w.units

/-- The `checkPDFs` retry loop: each violating scan pauses on `input()` for
the operator, who presents the next tree state; the loop returns the first
state that scans clean.  `none` means the operator never produced a clean
state and the loop is still blocked. -/
def checkPDFsRun (target : String) (exceptions : List String) : List Walk → Option Walk
  | [] => none
  | w :: rest =>
    match scanWalk target exceptions w with
    | none => some w
    | some _ => checkPDFsRun target exceptions rest

/-! ## Dispatch (lcr lines 113-135, assembleEmail lines 362-401) -/

/-- The outcome of one `smtp.sendmail` submission, the boundary of the mail
transport collaborator: either delivery was accepted, or an
`smtplib.SMTPException` (recipient rejection included) was raised. -/
inductive Outcome : Type
  | sent
  | smtpException
deriving DecidableEq, Repr

/-- Observable dispatch actions, in program order: a rename of an attachment
and a transport attempt with the recipient string of the message. -/
inductive Ev : Type
  | rename (src dst : String)
  | attempt (recipients : String)
deriving DecidableEq, Repr

/-- The assembled message. -/
structure Msg where
  sender : String
  toAddrs : String
  subject : String
  body : String
  attachName : String
deriving DecidableEq, Repr

/-- The canonical delivery file name of `assembleEmail` (lines 374-377),
built from the record fields. -/
def canonicalPdfName (ln fn sub ty : String) : String :=
  ln ++ ", " ++ fn ++ " - " ++ sub ++ " " ++ ty ++ " level completion report.pdf"

/-- The file loop of `assembleEmail` (lines 372-383): each `.pdf` file is
renamed to the canonical delivery name inside the folder (the script joins
with a hardcoded backslash) and becomes the attachment; each `.html` file is
read as the body.  State threaded: filesystem, attachment path, body text;
the returned event list records every rename in order. -/
def attachLoop (st : StrDict) (folder : String) :
    List String → FS → String → String → Except PyError (FS × String × String × List Ev)
  | [], fs, att, body => .ok (fs, att, body, [])
  | f :: rest, fs, att, body =>
    if pyEndsWith f ".pdf" then
      match pyGet st "LastName" with
      | .error e => .error e
      | .ok ln =>
        match pyGet st "FirstName" with
        | .error e => .error e
        | .ok fn =>
          match pyGet st "Subject" with
          | .error e => .error e
          | .ok sub =>
            match pyGet st "Type" with
            | .error e => .error e
            | .ok ty =>
              let newName := pathJoin folder (canonicalPdfName ln fn sub ty)
              match fsRename fs (pathJoin folder f) newName with
              | .error e => .error e
              | .ok fs1 =>
                match attachLoop st folder rest fs1 newName body with
                | .error e => .error e
                | .ok (fs2, att2, body2, evs) =>
                  .ok (fs2, att2, body2, .rename (pathJoin folder f) newName :: evs)
    else if pyEndsWith f ".html" then
      match pyRead fs (pathJoin folder f) with
      | .error e => .error e
      | .ok b => attachLoop st folder rest fs att b
    else
      attachLoop st folder rest fs att body

/-- `assembleEmail(FROM, student_info, folder, filenames)`: compute the
recipients, the subject line, run the file loop, then build the message —
reading the attachment for the binary part, so a unit left with no attachment
path fails here. -/
def assembleEmail (FROM : String) (st : StrDict) (folder : String)
    (filenames : List String) (fs : FS) : Except PyError (Msg × String × FS × List Ev) :=
  match getRecipientsOf st with
  | .error e => .error e
  | .ok toAddrs =>
    match pyGet st "FirstName" with
    | .error e => .error e
    | .ok fn =>
      let subject := fn ++ apos ++ "s Level Completion Report"
      match attachLoop st folder filenames fs "" "" with
      | .error e => .error e
      | .ok (fs1, att, body, evs) =>
        match pyRead fs1 att with
        | .error e => .error e
        | .ok _ =>
          .ok ({ sender := FROM, toAddrs := toAddrs, subject := subject,
                 body := body, attachName := pyBasename att }, att, fs1, evs)

/-- The `except smtplib.SMTPException` handler of the dispatch loop (lines
124-133).  The handler prints a message interpolating the local variable
`dest` (line 129) before the statement `dest = print_folder +
os.path.split(attachment)[1]` (line 130) has run, so the read raises
`UnboundLocalError`, which nothing catches.  The remainder of the handler —
the concatenation of the print folder and the file name with no separator,
and the `shutil.copyfile` — is unreachable. -/
def sendFailureHandler (printFolder attachment : String) (fs : FS) : Except PyError FS :=
  let dest : Option String := none
  match dest with
  | none => .error (.unboundLocal "dest")
  | some _ =>
    let dest2 := printFolder ++ pyBasename attachment
    .ok (fs.write dest2 ((fs.files attachment).getD ""))

/-- Dispatch of one unit folder (loop body, lines 114-135): recover the
record key from the folder name after the first separator, look the record
up, assemble the message, submit it.  Success yields the key of the unit now
sent; a transport failure enters `sendFailureHandler` and aborts. -/
def dispatchOne (user : String) (tests : List (String × StrDict)) (printFolder : String)
    (transport : String → Outcome) (fs : FS) (folder : String) (filenames : List String) :
    Except PyError (FS × List Ev × String) :=
  match (pySplitOn folder " --- ").get? 1 with
  | none => .error .indexError
  | some key =>
    match pyGet tests key with
    | .error e => .error e
    | .ok st =>
      match assembleEmail user st folder filenames fs with
      | .error e => .error e
      | .ok (msg, att, fs1, evs) =>
        match transport msg.toAddrs with
        | .sent => .ok (fs1, evs ++ [.attempt msg.toAddrs], key)
        | .smtpException =>
          match sendFailureHandler printFolder att fs1 with
          | .error e => .error e
          | .ok fs2 => .ok (fs2, evs ++ [.attempt msg.toAddrs], key)

/-- The result of a completed dispatch walk. -/
structure DispatchOut where
  fs : FS
  sent : List String
  events : List Ev

/-- The dispatch walk (lines 113-135): visit every folder of the walk,
skipping the working directory itself and the print folder, dispatching each
remaining unit in order.  A unit whose handler raises aborts the whole
walk. -/
def dispatchLoop (user target printFolder : String) (tests : List (String × StrDict))
    (transport : String → Outcome) :
    List (String × List String) → FS → Except PyError DispatchOut
  | [], fs => .ok ⟨fs, [], []⟩
  | (folder, filenames) :: rest, fs =>
    if folder = target ∨ folder = printFolder then
      dispatchLoop user target printFolder tests transport rest fs
    else
      match dispatchOne user tests printFolder transport fs folder filenames with
      | .error e => .error e
      | .ok (fs1, evs, key) =>
        match dispatchLoop user target printFolder tests transport rest fs1 with
        | .error e => .error e
        | .ok out => .ok ⟨out.fs, key :: out.sent, evs ++ out.events⟩

/-- The reconciliation gate followed by dispatch, as `lcr` sequences them
(lines 108-135): dispatch walks the tree only once some scan has come back
all-clear; while every operator state still violates, dispatch is never
reached. -/
def reconcileThenDispatch (user target printFolder : String)
    (tests : List (String × StrDict)) (transport : String → Outcome)
    (states : List Walk) (fs : FS) : Option (Except PyError DispatchOut) :=
  match checkPDFsRun target [printFolder] states with
  | none => none
  | some w => some (dispatchLoop user target printFolder tests transport w.units fs)

/-! ## Basic dictionary lemmas -/

theorem Dict.find_insert_self {α : Type} (d : List (String × α)) (k : String) (v : α) :
    Dict.find (Dict.insert k v d) k = some v := by
  induction d with
  | nil => simp [Dict.insert, Dict.find]
  | cons e t ih =>
    obtain ⟨k', v'⟩ := e
    by_cases h : k = k' <;> simp [Dict.insert, Dict.find, h, ih]

theorem Dict.find_insert_ne {α : Type} (d : List (String × α)) (k k' : String) (v : α)
    (h : k' ≠ k) : Dict.find (Dict.insert k v d) k' = Dict.find d k' := by
  induction d with
  | nil => simp [Dict.insert, Dict.find, h]
  | cons e t ih =>
    obtain ⟨k'', v''⟩ := e
    by_cases h2 : k = k''
    · subst h2
      simp [Dict.insert, Dict.find, h]
    · by_cases h3 : k' = k'' <;> simp [Dict.insert, Dict.find, h2, h3, ih]

theorem Dict.insert_id {α : Type} (d : List (String × α)) (k : String) (v : α)
    (h : Dict.find d k = some v) : Dict.insert k v d = d := by
  induction d with
  | nil => simp [Dict.find] at h
  | cons e t ih =>
    obtain ⟨k', v'⟩ := e
    by_cases h2 : k = k'
    · subst h2
      simp [Dict.find] at h
      simp [Dict.insert, h]
    · simp [Dict.find, h2] at h
      simp [Dict.insert, h2, ih h]

theorem pyGet_of_find {α : Type} {d : List (String × α)} {k : String} {v : α}
    (h : Dict.find d k = some v) : pyGet d k = .ok v := by
  simp [pyGet, h]

theorem pyGet_error {α : Type} {d : List (String × α)} {k : String} {e : PyError}
    (h : pyGet d k = .error e) : e = .keyError k := by
  unfold pyGet at h
  cases h2 : Dict.find d k <;> simp [h2] at h
  exact h.symm

theorem pyGet_ok_find {α : Type} {d : List (String × α)} {k : String} {v : α}
    (h : pyGet d k = .ok v) : Dict.find d k = some v := by
  unfold pyGet at h
  cases h2 : Dict.find d k <;> simp [h2] at h
  exact h ▸ rfl

theorem nodup_keys_eq {α : Type} {l : List (String × α)} {k : String} {a b : α}
    (hnd : (l.map Prod.fst).Nodup) (ha : (k, a) ∈ l) (hb : (k, b) ∈ l) : a = b := by
  induction l with
  | nil => cases ha
  | cons e t ih =>
    simp only [List.map_cons, List.nodup_cons] at hnd
    rcases List.mem_cons.mp ha with h1 | h1 <;> rcases List.mem_cons.mp hb with h2 | h2
    · exact (Prod.ext_iff.mp (h1.trans h2.symm)).2
    · rw [← h1] at hnd
      exact absurd (List.mem_map.mpr ⟨_, h2, rfl⟩) hnd.1
    · rw [← h2] at hnd
      exact absurd (List.mem_map.mpr ⟨_, h1, rfl⟩) hnd.1
    · exact ih hnd.2 h1 h2

/-! ## Filesystem state lemmas -/

theorem FS.mkdirp_folders (fs : FS) (p q : String) :
    (fs.mkdirp p).folders q = (q == p || fs.folders q) := rfl

theorem FS.mkdirp_files (fs : FS) (p : String) : (fs.mkdirp p).files = fs.files := rfl

theorem FS.write_files_self (fs : FS) (p c : String) : (fs.write p c).files p = some c := by
  simp [FS.write]

theorem FS.write_files_ne (fs : FS) (p c q : String) (h : q ≠ p) :
    (fs.write p c).files q = fs.files q := by
  simp [FS.write, h]

theorem FS.mkdirp_id (fs : FS) (p : String) (h : fs.folders p = true) : fs.mkdirp p = fs := by
  have hf : (fun q => q == p || fs.folders q) = fs.folders := by
    funext q
    by_cases h2 : q = p
    · subst h2
      simp [h]
    · simp [h2]
  unfold FS.mkdirp
  rw [hf]

theorem FS.write_id (fs : FS) (p c : String) (h : fs.files p = some c) : fs.write p c = fs := by
  have hf : (fun q => if q == p then some c else fs.files q) = fs.files := by
    funext q
    by_cases h2 : q = p
    · subst h2
      simp [h]
    · simp [h2]
  unfold FS.write
  rw [hf]

/-! ## Truncation lemmas -/

theorem truncDot_idem (s : String) : truncDot (truncDot s) = truncDot s := by
  simp only [truncDot]
  congr 1
  exact List.takeWhile_idem

theorem truncCols_untouched {ks : List String} {st st' : StrDict} {k : String}
    (hk : k ∉ ks) (h : truncCols ks st = .ok st') : Dict.find st' k = Dict.find st k := by
  induction ks generalizing st with
  | nil =>
    simp [truncCols] at h
    rw [h]
  | cons k0 t ih =>
    simp only [truncCols] at h
    cases h2 : pyGet st k0 with
    | error e => simp [h2] at h
    | ok v =>
      rw [h2] at h
      have hne : k ≠ k0 := fun hc => hk (hc ▸ List.mem_cons_self _ _)
      rw [ih (fun hc => hk (List.mem_cons_of_mem _ hc)) h]
      exact Dict.find_insert_ne _ _ _ _ hne

theorem truncCols_trunc_values {ks : List String} {st st' : StrDict}
    (h : truncCols ks st = .ok st') :
    ∀ k ∈ ks, ∃ w, Dict.find st' k = some w ∧ truncDot w = w := by
  induction ks generalizing st with
  | nil => intro k hk; cases hk
  | cons k0 t ih =>
    simp only [truncCols] at h
    cases h2 : pyGet st k0 with
    | error e => simp [h2] at h
    | ok v =>
      rw [h2] at h
      intro k hk
      by_cases hmem : k ∈ t
      · exact ih h k hmem
      · have hk0 : k = k0 := by
          rcases List.mem_cons.mp hk with h3 | h3
          · exact h3
          · exact absurd h3 hmem
        subst hk0
        refine ⟨truncDot v, ?_, truncDot_idem v⟩
        rw [truncCols_untouched hmem h]
        exact Dict.find_insert_self _ _ _

theorem truncCols_of_fixed {ks : List String} {st : StrDict}
    (h : ∀ k ∈ ks, ∃ w, Dict.find st k = some w ∧ truncDot w = w) :
    truncCols ks st = .ok st := by
  induction ks with
  | nil => rfl
  | cons k0 t ih =>
    obtain ⟨w, hw, hfix⟩ := h k0 (List.mem_cons_self _ _)
    simp only [truncCols, pyGet_of_find hw]
    rw [hfix, Dict.insert_id _ _ _ hw]
    exact ih (fun k hk => h k (List.mem_cons_of_mem _ hk))

theorem truncCols_fixpoint {ks : List String} {st st' : StrDict}
    (h : truncCols ks st = .ok st') : truncCols ks st' = .ok st' :=
  truncCols_of_fixed (truncCols_trunc_values h)

/-! ## Claim C6: recipient computation -/

/-- C6.  For every record, recipient computation includes the mother's
address iff it is non-empty and the father's address iff it is non-empty; if
both are present and textually identical the result collapses to that single
address; otherwise the distinct included addresses are joined with a
comma-space: `getRecipients` coincides with the specification-side function
`getRecipientsSpec` on all inputs. -/
theorem c6_recipients (mother father : String) :
    getRecipients mother father = getRecipientsSpec mother father := by
  by_cases hm : mother = "" <;> by_cases hf : father = "" <;>
    simp [getRecipients, getRecipientsSpec, hm, hf, pyJoin]

/-! ## Claim C10: duplicate keys silently overwrite in loadSpreadsheet -/

theorem loadRows_append (kcs : List KeyCol) (header : List String) (includeRow : Bool)
    (rows : List (List String)) (r : List String) :
    ∀ (i : Nat) (d : List (String × StrDict)),
      loadRows kcs header includeRow i (rows ++ [r]) d =
        Dict.insert (rowKeyOf kcs includeRow (i + rows.length) r) (rowRecord header r)
          (loadRows kcs header includeRow i rows d) := by
  induction rows with
  | nil => intro i d; simp [loadRows]
  | cons row rest ih =>
    intro i d
    simp only [List.cons_append, loadRows, List.append_eq]
    rw [ih (i + 1)]
    have hlen : i + 1 + rest.length = i + (row :: rest).length := by
      simp only [List.length_cons]
      omega
    rw [hlen]

/-- C10.  When the spreadsheet loader is invoked without the row-ordinal key
option (as `lcr` does for the reference-total workbook, lines 81-82), two
rows producing the same key silently overwrite: the resulting mapping holds
the record of the last such row.  The loader is a total function — no error
and no warning is possible for the duplicate.  The hypotheses name an
earlier row of the same key to witness the duplication. -/
theorem c10_last_row_wins (header keyCols : List String) (rows : List (List String))
    (r0 r : List String) (d : List (String × StrDict)) (k : String)
    (_hdup : r0 ∈ rows)
    (_hk0 : pyStrip (pyJoin " " (rowKeyParts (resolveKeyCols header keyCols) r0)) = k)
    (hk : pyStrip (pyJoin " " (rowKeyParts (resolveKeyCols header keyCols) r)) = k) :
    Dict.find (loadSpreadsheet ⟨header, rows ++ [r]⟩ keyCols d false) k =
      some (rowRecord header r) := by
  unfold loadSpreadsheet
  rw [loadRows_append]
  have hkey : rowKeyOf (resolveKeyCols header keyCols) false (1 + rows.length) r = k := by
    simpa [rowKeyOf] using hk
  rw [hkey]
  exact Dict.find_insert_self _ _ _

/-- Witness for C10 at a concrete reference-totals sheet: two rows keyed by
level `3A`; the mapping holds the second row's record. -/
theorem c10_witness :
    ["3A", "200", "20"] ∈ [["3A", "200", "20"]] ∧
      Dict.find
        (loadSpreadsheet ⟨["level", "totalMarks", "suggestedTime"],
            [["3A", "200", "20"], ["3A", "210", "25"]]⟩ ["level"] [] false) "3A" =
        some (rowRecord ["level", "totalMarks", "suggestedTime"] ["3A", "210", "25"]) :=
  ⟨by decide,
   c10_last_row_wins ["level", "totalMarks", "suggestedTime"] ["level"]
     [["3A", "200", "20"]] ["3A", "200", "20"] ["3A", "210", "25"] [] "3A"
     (by decide) rfl rfl⟩

/-! ## Claim C1: transport failure handling -/

/-- A staged record for the C1 run. -/
def c1Rec : StrDict :=
  [("FirstName", "A"), ("LastName", "B"), ("Subject", "Math"), ("Type", "3"),
   ("MotherEmail", "m@x"), ("FatherEmail", ""), ("Passing", "Yes"),
   ("Time", "10"), ("Score", "20"), ("totalMarks", "30"), ("suggestedTime", "40")]

/-- A second staged record for the C1 run. -/
def c1Rec2 : StrDict :=
  [("FirstName", "C"), ("LastName", "D"), ("Subject", "Math"), ("Type", "3"),
   ("MotherEmail", "n@x"), ("FatherEmail", ""), ("Passing", "Yes"),
   ("Time", "11"), ("Score", "21"), ("totalMarks", "31"), ("suggestedTime", "41")]

/-- The tests dict for the C1 run: two units. -/
def c1Tests : List (String × StrDict) :=
  [("M 1", c1Rec), ("M 2", c1Rec2)]

/-- The staged tree for the C1 run: both unit folders hold exactly one pdf
and the rendered body. -/
def c1Fs : FS :=
  ⟨fun _ => true,
   fun p =>
     if p == "W\x5cA B Level 3 --- M 1\x5cr.pdf" then some "P1"
     else if p == "W\x5cA B Level 3 --- M 1\x5cemail.html" then some "H1"
     else if p == "W\x5cC D Level 3 --- M 2\x5cr.pdf" then some "P2"
     else if p == "W\x5cC D Level 3 --- M 2\x5cemail.html" then some "H2"
     else none⟩

/-- C1 fails on the code: the specification says a transport failure defers
the unit and the run continues, but the `except smtplib.SMTPException`
handler prints a message that reads the local `dest` (lcr.py line 129)
before `dest` is assigned (line 130), so the first failed submission raises
`UnboundLocalError` and the whole batch aborts — here a two-unit batch whose
transports both reject ends in the uncaught error instead of two deferred
units, and nothing reaches the print area. -/
theorem c1_transport_failure_aborts :
    dispatchLoop "u" "W" (pathJoin "W" "To Print") c1Tests (fun _ => .smtpException)
      [("W\x5cA B Level 3 --- M 1", ["r.pdf", "email.html"]),
       ("W\x5cC D Level 3 --- M 2", ["r.pdf", "email.html"])] c1Fs =
      .error (.unboundLocal "dest") := rfl

/-! ## Claim C3: empty-recipient units -/

/-- A staged record whose parents both have empty addresses. -/
def c3Rec : StrDict :=
  [("FirstName", "A"), ("LastName", "B"), ("Subject", "Math"), ("Type", "3"),
   ("MotherEmail", ""), ("FatherEmail", ""), ("Passing", "Yes")]

/-- The tests dict for the C3 run. -/
def c3Tests : List (String × StrDict) :=
  [("M 1", c3Rec)]

/-- The staged tree for the C3 run. -/
def c3Fs : FS :=
  ⟨fun _ => true,
   fun p =>
     if p == "W\x5cA B Level 3 --- M 1\x5cr.pdf" then some "P1"
     else if p == "W\x5cA B Level 3 --- M 1\x5cemail.html" then some "H1"
     else none⟩

/-- C3 fails on the code: for a unit whose computed recipient string is
empty the dispatch loop performs no pre-check at all — it still assembles the
message and submits it to the transport (the event trace ends with a
transport attempt carrying the empty recipient string), and with an
accepting transport the unit is recorded as sent, not routed to any deferred
set. -/
theorem c3_counterexample :
    (dispatchOne "u" c3Tests "P" (fun _ => .sent) c3Fs "W\x5cA B Level 3 --- M 1"
        ["r.pdf", "email.html"]).map (fun x => x.2) =
      .ok ([.rename "W\x5cA B Level 3 --- M 1\x5cr.pdf"
              "W\x5cA B Level 3 --- M 1\x5cB, A - Math 3 level completion report.pdf",
            .attempt ""], "M 1") := rfl

/-- C3 amended: for every unit whose computed recipient string is empty
(both parent addresses empty), the dispatch engine still makes a transport
attempt — the assembled message carries the empty recipient string and the
submission happens (here observed through an accepting transport: the event
trace records the attempt and the unit is recorded as sent); the code never
routes such a unit to the deferred area before attempting transport. -/
theorem c3_amended (user printFolder folder : String) (tests : List (String × StrDict))
    (transport : String → Outcome) (fs : FS) (filenames : List String) (key : String)
    (st : StrDict) (msg : Msg) (att : String) (fs1 : FS) (evs : List Ev)
    (hkey : (pySplitOn folder " --- ").get? 1 = some key)
    (hst : pyGet tests key = .ok st)
    (hm : Dict.find st "MotherEmail" = some "")
    (hf : Dict.find st "FatherEmail" = some "")
    (hasm : assembleEmail user st folder filenames fs = .ok (msg, att, fs1, evs))
    (htr : transport "" = .sent) :
    msg.toAddrs = "" ∧
      dispatchOne user tests printFolder transport fs folder filenames =
        .ok (fs1, evs ++ [.attempt ""], key) := by
  have hasm0 := hasm
  have hto : getRecipientsOf st = .ok "" := by
    unfold getRecipientsOf
    rw [pyGet_of_find hm, pyGet_of_find hf]
    rfl
  unfold assembleEmail at hasm
  rw [hto] at hasm
  dsimp only at hasm
  cases hfn : pyGet st "FirstName" with
  | error e => rw [hfn] at hasm; dsimp only at hasm; exact Except.noConfusion hasm
  | ok fn =>
    rw [hfn] at hasm
    dsimp only at hasm
    cases hal : attachLoop st folder filenames fs "" "" with
    | error e => rw [hal] at hasm; dsimp only at hasm; exact Except.noConfusion hasm
    | ok quad =>
      obtain ⟨fsA, attA, bodyA, evsA⟩ := quad
      rw [hal] at hasm
      dsimp only at hasm
      cases hrd : pyRead fsA attA with
      | error e => rw [hrd] at hasm; dsimp only at hasm; exact Except.noConfusion hasm
      | ok c =>
        rw [hrd] at hasm
        dsimp only at hasm
        simp only [Except.ok.injEq, Prod.mk.injEq] at hasm
        obtain ⟨hmsg, hatt, hfs, hevs⟩ := hasm
        have hmsgto : msg.toAddrs = "" := by rw [← hmsg]
        refine ⟨hmsgto, ?_⟩
        unfold dispatchOne
        rw [hkey]
        dsimp only
        rw [hst]
        dsimp only
        rw [hasm0]
        dsimp only
        rw [hmsgto, htr]

/-- The assembled message of the C3 witness run, projected out of the model
itself. -/
def c3Asm : Msg × String × FS × List Ev :=
  (assembleEmail "u" c3Rec "W\x5cA B Level 3 --- M 1" ["r.pdf", "email.html"]
      c3Fs).toOption.getD (⟨"", "", "", "", ""⟩, "", c3Fs, [])

/-- Witness for the amended C3 at the concrete empty-recipient unit. -/
theorem c3_witness :
    c3Asm.1.toAddrs = "" ∧
      dispatchOne "u" c3Tests "P" (fun _ => .sent) c3Fs "W\x5cA B Level 3 --- M 1"
        ["r.pdf", "email.html"] = .ok (c3Asm.2.2.1, c3Asm.2.2.2 ++ [.attempt ""], "M 1") :=
  c3_amended "u" "P" "W\x5cA B Level 3 --- M 1" c3Tests (fun _ => .sent) c3Fs
    ["r.pdf", "email.html"] "M 1" c3Rec c3Asm.1 c3Asm.2.1 c3Asm.2.2.1 c3Asm.2.2.2
    rfl rfl rfl rfl rfl rfl

/-! ## Field-copy lemmas for the join -/

theorem copyFields_untouched {tot : StrDict} {k : String} (st : StrDict)
    (h : k ∉ tot.map Prod.fst) :
    Dict.find (copyFields tot st) k = Dict.find st k := by
  induction tot generalizing st with
  | nil => rfl
  | cons kv t ih =>
    obtain ⟨k0, v0⟩ := kv
    simp only [List.map_cons, List.mem_cons] at h
    push_neg at h
    show Dict.find (copyFields t (Dict.insert k0 v0 st)) k = Dict.find st k
    rw [ih _ h.2, Dict.find_insert_ne _ _ _ _ h.1]

theorem copyFields_find {tot st : StrDict} (hnd : (tot.map Prod.fst).Nodup) :
    ∀ kv ∈ tot, Dict.find (copyFields tot st) kv.1 = some kv.2 := by
  induction tot generalizing st with
  | nil => intro kv h; cases h
  | cons kv0 t ih =>
    obtain ⟨k0, v0⟩ := kv0
    simp only [List.map_cons, List.nodup_cons] at hnd
    intro kv hkv
    rcases List.mem_cons.mp hkv with h1 | h1
    · subst h1
      show Dict.find (copyFields t (Dict.insert k0 v0 st)) k0 = some v0
      rw [copyFields_untouched _ hnd.1]
      exact Dict.find_insert_self _ _ _
    · exact ih hnd.2 kv h1

/-! ## Claim C7: the join on missing reference totals -/

/-- Reference totals for the C7 runs: only Math 3 is known. -/
def c7Totals : List (String × StrDict) :=
  [("Math 3", [("totalMarks", "200"), ("suggestedTime", "20")])]

/-- A test record whose join key has no reference total. -/
def c7TestsBad : List (String × StrDict) :=
  [("Reading 1", [("Subject", "Reading"), ("Type", "7")])]

/-- An empty working tree for the C7 runs. -/
def c7Fs : FS :=
  ⟨fun _ => false, fun _ => none⟩

/-- C7 fails on the code in its error-naming half: when a record's join key
has no matching reference total the code does not raise any named
`MissingReferenceTotal` condition — the module defines no such error class —
it lets the bare builtin `KeyError` of the dictionary subscript
`totals[total_key]` (lcr.py line 253) propagate.  The abort itself does
happen before any staging. -/
theorem c7_counterexample :
    assignTestTotals c7Totals c7TestsBad = .error (.keyError "Reading 7") ∧
      isModuleNamedError (.keyError "Reading 7") = false ∧
      joinThenStage c7Totals c7TestsBad [] "W" c7Fs = .error (.keyError "Reading 7") :=
  ⟨rfl, rfl, rfl⟩

/-- C7 amended: if any record's join key has no matching reference total,
the join fails with the propagated builtin `KeyError` carrying the key (not
a module-defined named error), and the error aborts the run before any
staging side effect occurs; when every key matches, the join succeeds and
every field of the matched reference total is copied into each record. -/
theorem c7_amended (totals tests : List (String × StrDict)) (templ : List TPart)
    (dir : String) (fs : FS) :
    (∀ e, assignTestTotals totals tests = .error e →
       (∃ k, e = .keyError k ∧ isModuleNamedError e = false) ∧
         joinThenStage totals tests templ dir fs = .error e) ∧
    (∀ t1, assignTestTotals totals tests = .ok t1 →
       List.Forall₂
         (fun (p q : String × StrDict) =>
           q.1 = p.1 ∧
             ∃ tot, pyGet totals (totalsKeyOf p.2) = .ok tot ∧
               q.2 = copyFields tot p.2 ∧
               ((tot.map Prod.fst).Nodup →
                 ∀ kv ∈ tot, Dict.find q.2 kv.1 = some kv.2))
         tests t1) := by
  constructor
  · intro e he
    refine ⟨?_, ?_⟩
    · clear fs templ dir
      induction tests with
      | nil => simp [assignTestTotals] at he
      | cons p rest ih =>
        obtain ⟨s, st⟩ := p
        unfold assignTestTotals at he
        cases h1 : enrichOne totals st with
        | error e2 =>
          rw [h1] at he
          dsimp only at he
          cases he
          unfold enrichOne at h1
          cases h2 : pyGet st "Subject" with
          | error e3 =>
            rw [h2] at h1
            cases h1
            rw [pyGet_error h2]
            exact ⟨_, rfl, rfl⟩
          | ok sub =>
            rw [h2] at h1
            dsimp only at h1
            cases h3 : pyGet st "Type" with
            | error e3 =>
              rw [h3] at h1
              cases h1
              rw [pyGet_error h3]
              exact ⟨_, rfl, rfl⟩
            | ok ty =>
              rw [h3] at h1
              dsimp only at h1
              cases h4 : pyGet totals (pyStrip sub ++ " " ++ pyStrip ty) with
              | error e3 =>
                rw [h4] at h1
                cases h1
                rw [pyGet_error h4]
                exact ⟨_, rfl, rfl⟩
              | ok tot =>
                rw [h4] at h1
                exact Except.noConfusion h1
        | ok st1 =>
          rw [h1] at he
          dsimp only at he
          cases h5 : assignTestTotals totals rest with
          | error e2 =>
            rw [h5] at he
            cases he
            exact ih h5
          | ok rest1 =>
            rw [h5] at he
            exact Except.noConfusion he
    · unfold joinThenStage
      rw [he]
  · intro t1 ht
    clear fs templ dir
    induction tests generalizing t1 with
    | nil =>
      unfold assignTestTotals at ht
      cases ht
      exact List.Forall₂.nil
    | cons p rest ih =>
      obtain ⟨s, st⟩ := p
      unfold assignTestTotals at ht
      cases h1 : enrichOne totals st with
      | error e2 => rw [h1] at ht; exact Except.noConfusion ht
      | ok st1 =>
        rw [h1] at ht
        dsimp only at ht
        cases h5 : assignTestTotals totals rest with
        | error e2 => rw [h5] at ht; exact Except.noConfusion ht
        | ok rest1 =>
          rw [h5] at ht
          cases ht
          refine List.Forall₂.cons ⟨rfl, ?_⟩ (ih rest1 h5)
          unfold enrichOne at h1
          cases h2 : pyGet st "Subject" with
          | error e3 => rw [h2] at h1; exact Except.noConfusion h1
          | ok sub =>
            rw [h2] at h1
            dsimp only at h1
            cases h3 : pyGet st "Type" with
            | error e3 => rw [h3] at h1; exact Except.noConfusion h1
            | ok ty =>
              rw [h3] at h1
              dsimp only at h1
              cases h4 : pyGet totals (pyStrip sub ++ " " ++ pyStrip ty) with
              | error e3 => rw [h4] at h1; exact Except.noConfusion h1
              | ok tot =>
                rw [h4] at h1
                cases h1
                have hkeq : totalsKeyOf st = pyStrip sub ++ " " ++ pyStrip ty := by
                  unfold totalsKeyOf
                  rw [pyGet_ok_find h2, pyGet_ok_find h3]
                  rfl
                refine ⟨tot, hkeq ▸ h4, rfl, fun hnd kv hkv => ?_⟩
                exact copyFields_find hnd kv hkv

/-- A test record whose join key does match a reference total. -/
def c7TestsOk : List (String × StrDict) :=
  [("M 1", [("Subject", "Math"), ("Type", "3")])]

/-- Witness for the amended C7, discharging both directions at concrete
inputs: the missing key aborts before staging with the bare `KeyError`, and
the matched key copies every reference field. -/
theorem c7_witness :
    joinThenStage c7Totals c7TestsBad [] "W" c7Fs = .error (.keyError "Reading 7") ∧
      List.Forall₂
        (fun (p q : String × StrDict) =>
          q.1 = p.1 ∧
            ∃ tot, pyGet c7Totals (totalsKeyOf p.2) = .ok tot ∧
              q.2 = copyFields tot p.2 ∧
              ((tot.map Prod.fst).Nodup →
                ∀ kv ∈ tot, Dict.find q.2 kv.1 = some kv.2))
        c7TestsOk ((assignTestTotals c7Totals c7TestsOk).toOption.getD []) :=
  ⟨((c7_amended c7Totals c7TestsBad [] "W" c7Fs).1 (.keyError "Reading 7") rfl).2,
   (c7_amended c7Totals c7TestsOk [] "W" c7Fs).2 _ rfl⟩

/-! ## Claim C9: the reconciliation gate -/

theorem scanUnits_none_iff (exceptions : List String) (units : List (String × List String)) :
    scanUnits exceptions units = none ↔
      ∀ p fls, (p, fls) ∈ units → p ∉ exceptions → pdfCount fls = 1 := by
  induction units with
  | nil => simp [scanUnits]
  | cons u rest ih =>
    obtain ⟨p0, fls0⟩ := u
    by_cases hex : p0 ∈ exceptions
    · simp only [scanUnits, if_pos hex, ih]
      constructor
      · intro h p fls hmem hnex
        rcases List.mem_cons.mp hmem with h1 | h1
        · cases h1
          exact absurd hex hnex
        · exact h p fls h1 hnex
      · intro h p fls hmem hnex
        exact h p fls (List.mem_cons_of_mem _ hmem) hnex
    · rw [scanUnits, if_neg hex]
      by_cases h0 : pdfCount fls0 = 0
      · simp only [if_pos h0]
        constructor
        · intro h
          exact Option.noConfusion h
        · intro h
          exact absurd h0 (by rw [h p0 fls0 (List.mem_cons_self _ _) hex]; omega)
      · rw [if_neg h0]
        by_cases h1 : 1 < pdfCount fls0
        · simp only [if_pos h1]
          constructor
          · intro h
            exact Option.noConfusion h
          · intro h
            exact absurd h1 (by rw [h p0 fls0 (List.mem_cons_self _ _) hex]; omega)
        · simp only [if_neg h1, ih]
          have hone : pdfCount fls0 = 1 := by omega
          constructor
          · intro h p fls hmem hnex
            rcases List.mem_cons.mp hmem with h2 | h2
            · cases h2
              exact hone
            · exact h p fls h2 hnex
          · intro h p fls hmem hnex
            exact h p fls (List.mem_cons_of_mem _ hmem) hnex

/-- C9.  Reconciliation reports all-clear exactly when the root directory
holds zero deliverable files and every walked unit folder outside the
exception list holds exactly one; and while every tree state the operator
presents still violates the policy, the `checkPDFs` loop never returns, so
dispatch is never reached. -/
theorem c9_gate (user target printFolder : String) (tests : List (String × StrDict))
    (transport : String → Outcome) (states : List Walk) (fs : FS)
    (hne : target ≠ printFolder) :
    (∀ w : Walk, scanWalk target [printFolder] w = none ↔
       (pdfCount w.rootFiles = 0 ∧
         ∀ p fls, (p, fls) ∈ w.units → p ≠ printFolder → pdfCount fls = 1)) ∧
    ((∀ w ∈ states, scanWalk target [printFolder] w ≠ none) →
       reconcileThenDispatch user target printFolder tests transport states fs = none) := by
  constructor
  · intro w
    have hnex : target ∉ [printFolder] := by simp [hne]
    rw [scanWalk, if_neg hnex]
    by_cases hroot : 0 < pdfCount w.rootFiles
    · rw [if_pos hroot]
      constructor
      · intro h
        exact Option.noConfusion h
      · intro h
        omega
    · rw [if_neg hroot]
      rw [scanUnits_none_iff]
      constructor
      · intro h
        refine ⟨by omega, fun p fls hmem hnp => h p fls hmem (by simp [hnp])⟩
      · intro h p fls hmem hnp
        exact h.2 p fls hmem (by simpa using hnp)
  · intro hviol
    unfold reconcileThenDispatch
    have hrun : checkPDFsRun target [printFolder] states = none := by
      induction states with
      | nil => rfl
      | cons w rest ih =>
        unfold checkPDFsRun
        cases hs : scanWalk target [printFolder] w with
        | none => exact absurd hs (hviol w (List.mem_cons_self _ _))
        | some v => exact ih (fun w2 h2 => hviol w2 (List.mem_cons_of_mem _ h2))
    rw [hrun]

/-- An empty working tree for the C9 witness. -/
def c9Fs : FS :=
  ⟨fun _ => false, fun _ => none⟩

/-- Witness for C9: a single operator state whose only unit folder holds no
deliverable blocks the gate, and dispatch is never invoked. -/
theorem c9_witness :
    "W" ≠ "P" ∧
      reconcileThenDispatch "u" "W" "P" [] (fun _ => .sent)
        [⟨[], [("F", ["note.txt"])]⟩] c9Fs = none := by
  constructor
  · decide
  · refine (c9_gate "u" "W" "P" [] (fun _ => .sent) [⟨[], [("F", ["note.txt"])]⟩] c9Fs
      (by decide)).2 ?_
    intro w hw
    rcases List.mem_singleton.mp hw with rfl
    intro hc
    have := ((c9_gate "u" "W" "P" [] (fun _ => .sent) [⟨[], [("F", ["note.txt"])]⟩] c9Fs
      (by decide)).1 ⟨[], [("F", ["note.txt"])]⟩).mp hc
    have h1 := this.2 "F" ["note.txt"] (by decide) (by decide)
    revert h1
    decide

/-! ## Claim C8: integer normalization by truncation -/

theorem truncCols_reads_original {ks : List String} {st st' : StrDict}
    (hnd : ks.Nodup) (h : truncCols ks st = .ok st') :
    ∀ k ∈ ks, ∃ v, Dict.find st k = some v ∧ Dict.find st' k = some (truncDot v) := by
  induction ks generalizing st with
  | nil => intro k hk; cases hk
  | cons k0 t ih =>
    simp only [List.nodup_cons] at hnd
    unfold truncCols at h
    cases h2 : pyGet st k0 with
    | error e => rw [h2] at h; exact Except.noConfusion h
    | ok v0 =>
      rw [h2] at h
      intro k hk
      rcases List.mem_cons.mp hk with h3 | h3
      · subst h3
        refine ⟨v0, pyGet_ok_find h2, ?_⟩
        rw [truncCols_untouched hnd.1 h]
        exact Dict.find_insert_self _ _ _
      · have hne : k ≠ k0 := fun hc => hnd.1 (hc ▸ h3)
        obtain ⟨v, hv1, hv2⟩ := ih hnd.2 h k h3
        rw [Dict.find_insert_ne _ _ _ _ hne] at hv1
        exact ⟨v, hv1, hv2⟩

/-- C8.  For every staged record, each designated integer-valued column
(elapsed time, score, total marks, suggested time) is normalized before
rendering by truncating any fractional textual suffix — the record the body
is rendered from holds exactly the truncations of the source values, the
written body is the render of that normalized record, and truncation of
`190.9` yields `190`, never the rounding `191`. -/
theorem c8_truncation (templ : List TPart) (dir s : String) (fs fs2 : FS)
    (st st2 : StrDict) (ep : String)
    (hrun : prepOne templ dir fs s st = .ok (fs2, st2, some ep)) :
    (∀ k ∈ INTEGER_COLUMNS, ∃ v,
       Dict.find st k = some v ∧ Dict.find st2 k = some (truncDot v)) ∧
    (∃ body, render st2 templ = .ok body ∧ fs2.files ep = some body) ∧
    truncDot "190.9" = "190" ∧ truncDot "190.9" ≠ "191" := by
  unfold prepOne at hrun
  cases hp : pyGet st "Passing" with
  | error e => rw [hp] at hrun; exact Except.noConfusion hrun
  | ok pv =>
    rw [hp] at hrun
    dsimp only at hrun
    by_cases hpv : pv = "No"
    · rw [if_pos hpv] at hrun
      simp at hrun
    · rw [if_neg hpv] at hrun
      cases htr : truncCols INTEGER_COLUMNS st with
      | error e => rw [htr] at hrun; exact Except.noConfusion hrun
      | ok st1 =>
        rw [htr] at hrun
        dsimp only at hrun
        cases hrd : render st1 templ with
        | error e => rw [hrd] at hrun; exact Except.noConfusion hrun
        | ok body =>
          rw [hrd] at hrun
          simp only [Except.ok.injEq, Prod.mk.injEq, Option.some.injEq] at hrun
          obtain ⟨hfs, hst, hep⟩ := hrun
          subst hfs
          subst hst
          subst hep
          refine ⟨truncCols_reads_original (by decide) htr, ⟨body, hrd, ?_⟩, by decide, by decide⟩
          exact FS.write_files_self _ _ _

/-- The record of the C8 witness run, with fractional source values. -/
def c8Rec : StrDict :=
  [("FirstName", "A"), ("LastName", "B"), ("Type", "3"), ("Passing", "Yes"),
   ("Time", "190.9"), ("Score", "88.5"), ("totalMarks", "200.0"), ("suggestedTime", "20.0")]

/-- The template of the C8 witness run. -/
def c8Templ : List TPart :=
  [.lit "Score ", .hole "Score", .lit " of ", .hole "totalMarks"]

/-- An empty working tree for the C8 witness. -/
def c8Fs : FS :=
  ⟨fun _ => false, fun _ => none⟩

/-- The staging result of the C8 witness run, projected out of the model. -/
def c8Res : FS × StrDict × Option String :=
  (prepOne c8Templ "W" c8Fs "M 1" c8Rec).toOption.getD (c8Fs, [], none)

/-- Witness for C8 at the concrete record: the staged record truncates every
integer column and the written body renders the truncated record. -/
theorem c8_witness :
    (∀ k ∈ INTEGER_COLUMNS, ∃ v,
       Dict.find c8Rec k = some v ∧ Dict.find c8Res.2.1 k = some (truncDot v)) ∧
    (∃ body, render c8Res.2.1 c8Templ = .ok body ∧
       c8Res.1.files "W\x5cA B Level 3 --- M 1\x5cemail.html" = some body) ∧
    truncDot "190.9" = "190" ∧ truncDot "190.9" ≠ "191" :=
  c8_truncation c8Templ "W" "M 1" c8Fs c8Res.1 c8Rec c8Res.2.1
    "W\x5cA B Level 3 --- M 1\x5cemail.html" rfl

/-! ## Claim C4: the canonical attachment rename -/

theorem attachLoop_no_pdf {st : StrDict} {folder : String} :
    ∀ (files : List String) (fs : FS) (att body : String) (fsA : FS) (attA bA : String)
      (evsA : List Ev),
      files.filter (fun g => pyEndsWith g ".pdf") = [] →
      attachLoop st folder files fs att body = .ok (fsA, attA, bA, evsA) →
      evsA = [] ∧ attA = att := by
  intro files
  induction files with
  | nil =>
    intro fs att body fsA attA bA evsA _ h
    unfold attachLoop at h
    simp only [Except.ok.injEq, Prod.mk.injEq] at h
    exact ⟨h.2.2.2.symm, h.2.1.symm⟩
  | cons g rest ih =>
    intro fs att body fsA attA bA evsA hfil h
    rw [List.filter_cons] at hfil
    by_cases hg : pyEndsWith g ".pdf"
    · rw [if_pos (by simpa using hg)] at hfil
      exact absurd hfil (by simp)
    · rw [if_neg (by simpa using hg)] at hfil
      unfold attachLoop at h
      rw [if_neg hg] at h
      by_cases hh : pyEndsWith g ".html"
      · rw [if_pos hh] at h
        cases hrd : pyRead fs (pathJoin folder g) with
        | error e => rw [hrd] at h; exact Except.noConfusion h
        | ok b =>
          rw [hrd] at h
          exact ih fs att b fsA attA bA evsA hfil h
      · rw [if_neg hh] at h
        exact ih fs att body fsA attA bA evsA hfil h

theorem attachLoop_single_pdf {st : StrDict} {folder f ln fn sub ty : String}
    (hln : Dict.find st "LastName" = some ln)
    (hfn : Dict.find st "FirstName" = some fn)
    (hsub : Dict.find st "Subject" = some sub)
    (hty : Dict.find st "Type" = some ty) :
    ∀ (files : List String) (fs : FS) (att body : String) (fsA : FS) (attA bA : String)
      (evsA : List Ev),
      files.filter (fun g => pyEndsWith g ".pdf") = [f] →
      attachLoop st folder files fs att body = .ok (fsA, attA, bA, evsA) →
      evsA = [.rename (pathJoin folder f) (pathJoin folder (canonicalPdfName ln fn sub ty))] ∧
        attA = pathJoin folder (canonicalPdfName ln fn sub ty) := by
  intro files
  induction files with
  | nil =>
    intro fs att body fsA attA bA evsA hfil _
    exact absurd hfil (by simp)
  | cons g rest ih =>
    intro fs att body fsA attA bA evsA hfil h
    rw [List.filter_cons] at hfil
    by_cases hg : pyEndsWith g ".pdf"
    · rw [if_pos (by simpa using hg)] at hfil
      have hgf : g = f := (List.cons.injEq _ _ _ _ ▸ hfil).1
      have hrest : rest.filter (fun g => pyEndsWith g ".pdf") = [] :=
        (List.cons.injEq _ _ _ _ ▸ hfil).2
      subst hgf
      unfold attachLoop at h
      rw [if_pos hg, pyGet_of_find hln] at h
      dsimp only at h
      rw [pyGet_of_find hfn] at h
      dsimp only at h
      rw [pyGet_of_find hsub] at h
      dsimp only at h
      rw [pyGet_of_find hty] at h
      dsimp only at h
      cases hrn : fsRename fs (pathJoin folder g) (pathJoin folder (canonicalPdfName ln fn sub ty)) with
      | error e => rw [hrn] at h; exact Except.noConfusion h
      | ok fs1 =>
        rw [hrn] at h
        dsimp only at h
        cases hal : attachLoop st folder rest fs1 (pathJoin folder (canonicalPdfName ln fn sub ty)) body with
        | error e => rw [hal] at h; exact Except.noConfusion h
        | ok quad =>
          obtain ⟨fs2, att2, b2, evs2⟩ := quad
          rw [hal] at h
          dsimp only at h
          simp only [Except.ok.injEq, Prod.mk.injEq] at h
          obtain ⟨hfs, hatt, hb, hevs⟩ := h
          obtain ⟨hevs2, hatt2⟩ := attachLoop_no_pdf rest fs1 _ body fs2 att2 b2 evs2 hrest hal
          subst hevs2
          exact ⟨hevs.symm, hatt ▸ hatt2⟩
    · rw [if_neg (by simpa using hg)] at hfil
      unfold attachLoop at h
      rw [if_neg hg] at h
      by_cases hh : pyEndsWith g ".html"
      · rw [if_pos hh] at h
        cases hrd : pyRead fs (pathJoin folder g) with
        | error e => rw [hrd] at h; exact Except.noConfusion h
        | ok b =>
          rw [hrd] at h
          exact ih fs att b fsA attA bA evsA hfil h
      · rw [if_neg hh] at h
        exact ih fs att body fsA attA bA evsA hfil h

/-- C4.  For every dispatched unit holding exactly one deliverable file, the
dispatch assembles the email by renaming that file exactly once, before any
transport attempt, to the canonical delivery filename
`LastName, FirstName - Subject Type level completion report.pdf` joined
under the unit's own folder: the event trace of the unit is exactly one
rename followed by the single transport attempt. -/
theorem c4_canonical_rename (user printFolder folder f : String)
    (tests : List (String × StrDict)) (transport : String → Outcome) (fs fs1 : FS)
    (filenames : List String) (evs : List Ev) (key : String) (st : StrDict)
    (ln fn sub ty : String)
    (hpdf : filenames.filter (fun g => pyEndsWith g ".pdf") = [f])
    (hst : pyGet tests key = .ok st)
    (hln : Dict.find st "LastName" = some ln)
    (hfn : Dict.find st "FirstName" = some fn)
    (hsub : Dict.find st "Subject" = some sub)
    (hty : Dict.find st "Type" = some ty)
    (hrun : dispatchOne user tests printFolder transport fs folder filenames =
      .ok (fs1, evs, key)) :
    ∃ toA, evs =
      [.rename (pathJoin folder f) (pathJoin folder (canonicalPdfName ln fn sub ty)),
       .attempt toA] := by
  unfold dispatchOne at hrun
  cases hsp : (pySplitOn folder " --- ").get? 1 with
  | none => rw [hsp] at hrun; exact Except.noConfusion hrun
  | some key2 =>
    rw [hsp] at hrun
    dsimp only at hrun
    cases hst2 : pyGet tests key2 with
    | error e => rw [hst2] at hrun; exact Except.noConfusion hrun
    | ok st2 =>
      rw [hst2] at hrun
      dsimp only at hrun
      cases hass : assembleEmail user st2 folder filenames fs with
      | error e => rw [hass] at hrun; exact Except.noConfusion hrun
      | ok quad =>
        obtain ⟨msg, att, fsB, evsB⟩ := quad
        rw [hass] at hrun
        dsimp only at hrun
        cases htr : transport msg.toAddrs with
        | sent =>
          rw [htr] at hrun
          dsimp only at hrun
          simp only [Except.ok.injEq, Prod.mk.injEq] at hrun
          obtain ⟨hfs, hevs, hkey2⟩ := hrun
          subst hkey2
          have hst2eq : st2 = st := by
            rw [hst2] at hst
            exact Except.ok.injEq _ _ ▸ hst
          subst hst2eq
          unfold assembleEmail at hass
          cases hto : getRecipientsOf st2 with
          | error e => rw [hto] at hass; exact Except.noConfusion hass
          | ok toA =>
            rw [hto] at hass
            dsimp only at hass
            cases hfn2 : pyGet st2 "FirstName" with
            | error e => rw [hfn2] at hass; exact Except.noConfusion hass
            | ok fn2 =>
              rw [hfn2] at hass
              dsimp only at hass
              cases hal : attachLoop st2 folder filenames fs "" "" with
              | error e => rw [hal] at hass; exact Except.noConfusion hass
              | ok quad2 =>
                obtain ⟨fsC, attC, bC, evsC⟩ := quad2
                rw [hal] at hass
                dsimp only at hass
                cases hrd : pyRead fsC attC with
                | error e => rw [hrd] at hass; exact Except.noConfusion hass
                | ok c =>
                  rw [hrd] at hass
                  dsimp only at hass
                  simp only [Except.ok.injEq, Prod.mk.injEq] at hass
                  obtain ⟨hmsg, hatt, hfsB, hevsB⟩ := hass
                  obtain ⟨hevsC, hattC⟩ :=
                    attachLoop_single_pdf hln hfn hsub hty filenames fs "" "" fsC attC bC
                      evsC hpdf hal
                  refine ⟨msg.toAddrs, ?_⟩
                  rw [← hevs, ← hevsB, hevsC]
                  rfl
        | smtpException =>
          rw [htr] at hrun
          dsimp only [sendFailureHandler] at hrun
          exact Except.noConfusion hrun

/-- The record of the C4 witness run. -/
def c4Rec : StrDict :=
  [("FirstName", "A"), ("LastName", "B"), ("Subject", "Math"), ("Type", "3"),
   ("MotherEmail", "m@x"), ("FatherEmail", ""), ("Passing", "Yes")]

/-- The tests dict of the C4 witness run. -/
def c4Tests : List (String × StrDict) :=
  [("M 1", c4Rec)]

/-- The staged tree of the C4 witness run. -/
def c4Fs : FS :=
  ⟨fun _ => true,
   fun p =>
     if p == "W\x5cA B Level 3 --- M 1\x5cr.pdf" then some "P1"
     else if p == "W\x5cA B Level 3 --- M 1\x5cemail.html" then some "H1"
     else none⟩

/-- The dispatch result of the C4 witness run, projected out of the model. -/
def c4Res : FS × List Ev × String :=
  (dispatchOne "u" c4Tests "P" (fun _ => .sent) c4Fs "W\x5cA B Level 3 --- M 1"
      ["r.pdf", "email.html"]).toOption.getD (c4Fs, [], "")

/-- Witness for C4 at a concrete dispatched unit with exactly one pdf. -/
theorem c4_witness :
    ∃ toA, c4Res.2.1 =
      [.rename (pathJoin "W\x5cA B Level 3 --- M 1" "r.pdf")
         (pathJoin "W\x5cA B Level 3 --- M 1" (canonicalPdfName "B" "A" "Math" "3")),
       .attempt toA] :=
  c4_canonical_rename "u" "P" "W\x5cA B Level 3 --- M 1" "r.pdf" c4Tests
    (fun _ => .sent) c4Fs c4Res.1 ["r.pdf", "email.html"] c4Res.2.1 "M 1" c4Rec
    "B" "A" "Math" "3" (by decide) rfl rfl rfl rfl rfl rfl

/-! ## Claim C5: non-passing records -/

/-- The folder paths staging creates: one per record whose passing flag is
not the string `"No"`. -/
def createdFolders (dir : String) (tests : List (String × StrDict)) : List String :=
  (tests.filter (fun p => !(Dict.find p.2 "Passing" == some "No"))).map
    (fun p => folderPathOf dir p.1 p.2)

theorem dispatchOne_key {user printFolder folder : String} {tests : List (String × StrDict)}
    {transport : String → Outcome} {fs fs1 : FS} {filenames : List String}
    {evs : List Ev} {key : String}
    (h : dispatchOne user tests printFolder transport fs folder filenames =
      .ok (fs1, evs, key)) :
    (pySplitOn folder " --- ").get? 1 = some key := by
  unfold dispatchOne at h
  cases hsp : (pySplitOn folder " --- ").get? 1 with
  | none => rw [hsp] at h; exact Except.noConfusion h
  | some key2 =>
    rw [hsp] at h
    dsimp only at h
    cases hst : pyGet tests key2 with
    | error e => rw [hst] at h; exact Except.noConfusion h
    | ok st =>
      rw [hst] at h
      dsimp only at h
      cases hass : assembleEmail user st folder filenames fs with
      | error e => rw [hass] at h; exact Except.noConfusion h
      | ok quad =>
        obtain ⟨msg, att, fsB, evsB⟩ := quad
        rw [hass] at h
        dsimp only at h
        cases htr : transport msg.toAddrs with
        | sent =>
          rw [htr] at h
          dsimp only at h
          simp only [Except.ok.injEq, Prod.mk.injEq] at h
          rw [h.2.2]
        | smtpException =>
          rw [htr] at h
          dsimp only [sendFailureHandler] at h
          exact Except.noConfusion h

theorem dispatch_sent_mem {user target printFolder : String} {tests : List (String × StrDict)}
    {transport : String → Outcome} :
    ∀ (units : List (String × List String)) (fs : FS) (out : DispatchOut),
      dispatchLoop user target printFolder tests transport units fs = .ok out →
      ∀ k ∈ out.sent, ∃ u ∈ units,
        u.1 ≠ target ∧ u.1 ≠ printFolder ∧ (pySplitOn u.1 " --- ").get? 1 = some k := by
  intro units
  induction units with
  | nil =>
    intro fs out h k hk
    unfold dispatchLoop at h
    cases h
    cases hk
  | cons u rest ih =>
    intro fs out h k hk
    obtain ⟨folder, filenames⟩ := u
    unfold dispatchLoop at h
    by_cases hskip : folder = target ∨ folder = printFolder
    · rw [if_pos hskip] at h
      obtain ⟨u2, hu2, hrest⟩ := ih fs out h k hk
      exact ⟨u2, List.mem_cons_of_mem _ hu2, hrest⟩
    · rw [if_neg hskip] at h
      push_neg at hskip
      cases hone : dispatchOne user tests printFolder transport fs folder filenames with
      | error e => rw [hone] at h; exact Except.noConfusion h
      | ok trip =>
        obtain ⟨fs1, evs, key⟩ := trip
        rw [hone] at h
        dsimp only at h
        cases hrec : dispatchLoop user target printFolder tests transport rest fs1 with
        | error e => rw [hrec] at h; exact Except.noConfusion h
        | ok out2 =>
          rw [hrec] at h
          cases h
          rcases List.mem_cons.mp hk with h1 | h1
          · subst h1
            exact ⟨(folder, filenames), List.mem_cons_self _ _, hskip.1, hskip.2,
              dispatchOne_key hone⟩
          · obtain ⟨u2, hu2, hrest⟩ := ih fs1 out2 hrec k h1
            exact ⟨u2, List.mem_cons_of_mem _ hu2, hrest⟩

/-- C5.  A test record whose passing flag is the string value meaning false
is skipped entirely by staging — no folder, no render, no record mutation —
and, since dispatch only walks folders that staging created (exceptions
aside) and every created folder encodes the key of a passing record, the
non-passing record's key never appears among the dispatched (sent) units.
The dispatch output has no deferred component at all in the code. -/
theorem c5_nonpassing_skipped (templ : List TPart) (dir user target printFolder : String)
    (tests : List (String × StrDict)) (transport : String → Outcome)
    (units : List (String × List String)) (fs fs0 : FS) (s : String) (st : StrDict)
    (out : DispatchOut)
    (hmem : (s, st) ∈ tests)
    (hpass : Dict.find st "Passing" = some "No")
    (hkeys : (tests.map Prod.fst).Nodup)
    (henc : ∀ p ∈ tests, (pySplitOn (folderPathOf dir p.1 p.2) " --- ").get? 1 = some p.1)
    (hunits : ∀ u ∈ units, u.1 ≠ target → u.1 ≠ printFolder →
      u.1 ∈ createdFolders dir tests)
    (hdisp : dispatchLoop user target printFolder tests transport units fs = .ok out) :
    prepOne templ dir fs0 s st = .ok (fs0, st, none) ∧ s ∉ out.sent := by
  constructor
  · unfold prepOne
    rw [pyGet_of_find hpass]
    rfl
  · intro hsent
    obtain ⟨u, humem, hnt, hnp, hukey⟩ := dispatch_sent_mem units fs out hdisp s hsent
    have hc := hunits u humem hnt hnp
    unfold createdFolders at hc
    obtain ⟨p, hpfil, hpath⟩ := List.mem_map.mp hc
    obtain ⟨hptests, hppred⟩ := List.mem_filter.mp hpfil
    have hp1 : p.1 = s := by
      have := henc p hptests
      rw [hpath, hukey] at this
      exact (Option.some.injEq _ _ ▸ this).symm
    have hpst : p.2 = st := by
      have hps : (s, p.2) ∈ tests := by
        rw [← hp1]
        exact hptests
      exact nodup_keys_eq hkeys hps hmem
    rw [hpst, hpass] at hppred
    simp at hppred

/-- The non-passing record of the C5 witness run. -/
def c5RecNo : StrDict :=
  [("FirstName", "N"), ("LastName", "O"), ("Subject", "Math"), ("Type", "3"),
   ("MotherEmail", "x@y"), ("FatherEmail", ""), ("Passing", "No")]

/-- The passing record of the C5 witness run. -/
def c5RecYes : StrDict :=
  [("FirstName", "A"), ("LastName", "B"), ("Subject", "Math"), ("Type", "3"),
   ("MotherEmail", "m@x"), ("FatherEmail", ""), ("Passing", "Yes")]

/-- The tests dict of the C5 witness run. -/
def c5Tests : List (String × StrDict) :=
  [("M 1", c5RecNo), ("M 2", c5RecYes)]

/-- The staged tree of the C5 witness run: only the passing record's folder
exists. -/
def c5Fs : FS :=
  ⟨fun p => p == "W\x5cA B Level 3 --- M 2",
   fun p =>
     if p == "W\x5cA B Level 3 --- M 2\x5cr.pdf" then some "P1"
     else if p == "W\x5cA B Level 3 --- M 2\x5cemail.html" then some "H1"
     else none⟩

/-- The dispatch result of the C5 witness run, projected out of the model. -/
def c5Out : DispatchOut :=
  (dispatchLoop "u" "W" "P" c5Tests (fun _ => .sent)
      [("W\x5cA B Level 3 --- M 2", ["r.pdf", "email.html"])] c5Fs).toOption.getD
    ⟨c5Fs, [], []⟩

/-- Witness for C5: the non-passing record is skipped with no side effect
and its key is absent from the dispatch output. -/
theorem c5_witness :
    prepOne [] "W" c5Fs "M 1" c5RecNo = .ok (c5Fs, c5RecNo, none) ∧ "M 1" ∉ c5Out.sent :=
  c5_nonpassing_skipped [] "W" "u" "W" "P" c5Tests (fun _ => .sent)
    [("W\x5cA B Level 3 --- M 2", ["r.pdf", "email.html"])] c5Fs c5Fs "M 1" c5RecNo c5Out
    (by decide) rfl (by decide) (by decide) (by decide) rfl

/-! ## Claim C2: idempotence of staging -/

theorem prepOne_folders_mono {templ : List TPart} {dir : String} {fs fs1 : FS}
    {s : String} {st st1 : StrDict} {r : Option String}
    (h : prepOne templ dir fs s st = .ok (fs1, st1, r)) :
    ∀ q, fs.folders q = true → fs1.folders q = true := by
  intro q hq
  unfold prepOne at h
  cases hpg : pyGet st "Passing" with
  | error e => rw [hpg] at h; exact Except.noConfusion h
  | ok pv =>
    rw [hpg] at h
    dsimp only at h
    by_cases hpv : pv = "No"
    · rw [if_pos hpv] at h
      simp only [Except.ok.injEq, Prod.mk.injEq] at h
      rw [← h.1, hq]
    · rw [if_neg hpv] at h
      cases htc : truncCols INTEGER_COLUMNS st with
      | error e => rw [htc] at h; exact Except.noConfusion h
      | ok stA =>
        rw [htc] at h
        dsimp only at h
        cases hrd : render stA templ with
        | error e => rw [hrd] at h; exact Except.noConfusion h
        | ok body =>
          rw [hrd] at h
          simp only [Except.ok.injEq, Prod.mk.injEq] at h
          rw [← h.1]
          show (q == folderPathOf dir s st || fs.folders q) = true
          rw [hq]
          exact Bool.or_true _

theorem prepOne_files_frame {templ : List TPart} {dir : String} {fs fs1 : FS}
    {s : String} {st st1 : StrDict} {r : Option String}
    (h : prepOne templ dir fs s st = .ok (fs1, st1, r)) :
    ∀ p, p ∉ r.toList → fs1.files p = fs.files p := by
  intro p hp
  unfold prepOne at h
  cases hpg : pyGet st "Passing" with
  | error e => rw [hpg] at h; exact Except.noConfusion h
  | ok pv =>
    rw [hpg] at h
    dsimp only at h
    by_cases hpv : pv = "No"
    · rw [if_pos hpv] at h
      simp only [Except.ok.injEq, Prod.mk.injEq] at h
      rw [← h.1]
    · rw [if_neg hpv] at h
      cases htc : truncCols INTEGER_COLUMNS st with
      | error e => rw [htc] at h; exact Except.noConfusion h
      | ok stA =>
        rw [htc] at h
        dsimp only at h
        cases hrd : render stA templ with
        | error e => rw [hrd] at h; exact Except.noConfusion h
        | ok body =>
          rw [hrd] at h
          simp only [Except.ok.injEq, Prod.mk.injEq] at h
          have hpne : p ≠ pathJoin (folderPathOf dir s st) "email.html" := by
            intro hc
            apply hp
            rw [← h.2.2, hc]
            exact List.mem_singleton.mpr rfl
          rw [← h.1]
          exact FS.write_files_ne _ _ _ _ hpne

theorem prep_folders_mono {templ : List TPart} {dir : String} :
    ∀ (t : List (String × StrDict)) (fs fs2 : FS) (t1 : List (String × StrDict))
      (rs : List String),
      prepEmailFolders templ dir t fs = .ok (fs2, t1, rs) →
      ∀ q, fs.folders q = true → fs2.folders q = true := by
  intro t
  induction t with
  | nil =>
    intro fs fs2 t1 rs h q hq
    unfold prepEmailFolders at h
    cases h
    exact hq
  | cons p rest ih =>
    intro fs fs2 t1 rs h q hq
    obtain ⟨s, st⟩ := p
    unfold prepEmailFolders at h
    cases hp : prepOne templ dir fs s st with
    | error e => rw [hp] at h; exact Except.noConfusion h
    | ok trip =>
      obtain ⟨fsB, stB, r⟩ := trip
      rw [hp] at h
      dsimp only at h
      cases hr : prepEmailFolders templ dir rest fsB with
      | error e => rw [hr] at h; exact Except.noConfusion h
      | ok trip2 =>
        obtain ⟨fsA, rest1, rs2⟩ := trip2
        rw [hr] at h
        cases h
        exact ih _ _ _ _ hr q (prepOne_folders_mono hp q hq)

theorem prep_files_frame {templ : List TPart} {dir : String} :
    ∀ (t : List (String × StrDict)) (fs fs2 : FS) (t1 : List (String × StrDict))
      (rs : List String),
      prepEmailFolders templ dir t fs = .ok (fs2, t1, rs) →
      ∀ p, p ∉ rs → fs2.files p = fs.files p := by
  intro t
  induction t with
  | nil =>
    intro fs fs2 t1 rs h p hp
    unfold prepEmailFolders at h
    cases h
    rfl
  | cons q rest ih =>
    intro fs fs2 t1 rs h p hp
    obtain ⟨s, st⟩ := q
    unfold prepEmailFolders at h
    cases hq : prepOne templ dir fs s st with
    | error e => rw [hq] at h; exact Except.noConfusion h
    | ok trip =>
      obtain ⟨fsB, stB, r⟩ := trip
      rw [hq] at h
      dsimp only at h
      cases hr : prepEmailFolders templ dir rest fsB with
      | error e => rw [hr] at h; exact Except.noConfusion h
      | ok trip2 =>
        obtain ⟨fsA, rest1, rs2⟩ := trip2
        rw [hr] at h
        cases h
        rw [ih _ _ _ _ hr p (fun hc => hp (List.mem_append.mpr (Or.inr hc)))]
        exact prepOne_files_frame hq p
          (fun hc => hp (List.mem_append.mpr (Or.inl hc)))

theorem folderPathOf_truncCols {dir s : String} {st st1 : StrDict}
    (h : truncCols INTEGER_COLUMNS st = .ok st1) :
    folderPathOf dir s st1 = folderPathOf dir s st := by
  unfold folderPathOf folderNameOf
  rw [truncCols_untouched (show "FirstName" ∉ INTEGER_COLUMNS by decide) h,
      truncCols_untouched (show "LastName" ∉ INTEGER_COLUMNS by decide) h,
      truncCols_untouched (show "Type" ∉ INTEGER_COLUMNS by decide) h]

/-- C2 amended: staging an already-staged tree raises no error and yields
identical folder contents — but because the code re-renders and rewrites the
body instead of skipping it, the second pass repeats exactly the renders of
the first.  Formally, a second run of `prepEmailFolders` over the records
and tree a successful first run produced is a fixpoint: same tree, same
records, same rendered-path list.  The hypothesis that the first run's
rendered body paths are distinct is the specification's own
unique-folder-identity invariant. -/
theorem c2_amended (templ : List TPart) (dir : String) :
    ∀ (t : List (String × StrDict)) (fs fs1 : FS) (t1 : List (String × StrDict))
      (r1 : List String),
      r1.Nodup →
      prepEmailFolders templ dir t fs = .ok (fs1, t1, r1) →
      prepEmailFolders templ dir t1 fs1 = .ok (fs1, t1, r1) := by
  intro t
  induction t with
  | nil =>
    intro fs fs1 t1 r1 _ h
    unfold prepEmailFolders at h
    cases h
    rfl
  | cons p rest ih =>
    intro fs fs1 t1 r1 hnd h
    obtain ⟨s, st⟩ := p
    unfold prepEmailFolders at h
    cases hp : prepOne templ dir fs s st with
    | error e => rw [hp] at h; exact Except.noConfusion h
    | ok trip =>
      obtain ⟨fsB, stB, r⟩ := trip
      rw [hp] at h
      dsimp only at h
      cases hr : prepEmailFolders templ dir rest fsB with
      | error e => rw [hr] at h; exact Except.noConfusion h
      | ok trip2 =>
        obtain ⟨fsA, rest1, rs⟩ := trip2
        rw [hr] at h
        cases h
        unfold prepOne at hp
        cases hpg : pyGet st "Passing" with
        | error e => rw [hpg] at hp; exact Except.noConfusion hp
        | ok pv =>
          rw [hpg] at hp
          dsimp only at hp
          by_cases hpv : pv = "No"
          · rw [if_pos hpv] at hp
            simp only [Except.ok.injEq, Prod.mk.injEq] at hp
            obtain ⟨hfsB, hstB, hrr⟩ := hp
            subst hfsB
            subst hstB
            subst hrr
            have hstep : prepOne templ dir fs1 s st = .ok (fs1, st, none) := by
              unfold prepOne
              rw [hpg]
              dsimp only
              rw [if_pos hpv]
            unfold prepEmailFolders
            rw [hstep]
            dsimp only
            rw [ih _ _ _ _ (by simpa using hnd) hr]
          · rw [if_neg hpv] at hp
            cases htc : truncCols INTEGER_COLUMNS st with
            | error e => rw [htc] at hp; exact Except.noConfusion hp
            | ok stC =>
              rw [htc] at hp
              dsimp only at hp
              cases hrd : render stC templ with
              | error e => rw [hrd] at hp; exact Except.noConfusion hp
              | ok body =>
                rw [hrd] at hp
                simp only [Except.ok.injEq, Prod.mk.injEq] at hp
                obtain ⟨hfsB, hstB, hrr⟩ := hp
                subst hstB
                subst hrr
                simp only [Option.toList_some, List.cons_append, List.nodup_cons,
                  List.nil_append] at hnd
                have hfold : fs1.folders (folderPathOf dir s st) = true := by
                  refine prep_folders_mono rest fsB fs1 rest1 rs hr _ ?_
                  rw [← hfsB]
                  show ((folderPathOf dir s st == folderPathOf dir s st) ||
                    fs.folders (folderPathOf dir s st)) = true
                  simp
                have hfile : fs1.files (pathJoin (folderPathOf dir s st) "email.html") =
                    some body := by
                  rw [prep_files_frame rest fsB fs1 rest1 rs hr _ hnd.1, ← hfsB]
                  exact FS.write_files_self _ _ _
                have hstep : prepOne templ dir fs1 s stC =
                    .ok (fs1, stC, some (pathJoin (folderPathOf dir s st) "email.html")) := by
                  unfold prepOne
                  rw [pyGet_of_find
                    ((truncCols_untouched (show "Passing" ∉ INTEGER_COLUMNS by decide)
                      htc).trans (pyGet_ok_find hpg))]
                  dsimp only
                  rw [if_neg hpv]
                  rw [folderPathOf_truncCols htc]
                  rw [truncCols_fixpoint htc]
                  dsimp only
                  rw [hrd]
                  dsimp only
                  rw [FS.mkdirp_id _ _ hfold, FS.write_id _ _ _ hfile]
                unfold prepEmailFolders
                rw [hstep]
                dsimp only
                rw [ih _ _ _ _ hnd.2 hr]

/-- The record of the C2 runs. -/
def c2Rec : StrDict :=
  [("FirstName", "A"), ("LastName", "B"), ("Type", "3"), ("Passing", "Yes"),
   ("Time", "10"), ("Score", "20"), ("totalMarks", "30"), ("suggestedTime", "40")]

/-- The template of the C2 runs. -/
def c2Templ : List TPart :=
  [.lit "Hi ", .hole "Score"]

/-- A tree in which the unit's folder (and even its identical body) already
exists. -/
def c2FsPre : FS :=
  ⟨fun p => p == "W\x5cA B Level 3 --- M 1",
   fun p => if p == "W\x5cA B Level 3 --- M 1\x5cemail.html" then some "Hi 20" else none⟩

/-- C2 fails on the code in its no-re-render half: staging a record whose
folder already exists raises no error, but it does not skip the render — the
run's rendered-path list still contains the unit's body path, i.e. the body
was rendered and written again. -/
theorem c2_counterexample :
    c2FsPre.folders "W\x5cA B Level 3 --- M 1" = true ∧
      (prepEmailFolders c2Templ "W" [("M 1", c2Rec)] c2FsPre).map (fun x => x.2.2) =
        .ok ["W\x5cA B Level 3 --- M 1\x5cemail.html"] :=
  ⟨rfl, rfl⟩

/-- An empty tree for the C2 witness run. -/
def c2FsEmpty : FS :=
  ⟨fun _ => false, fun _ => none⟩

/-- The first staging run of the C2 witness, projected out of the model. -/
def c2Run : FS × List (String × StrDict) × List String :=
  (prepEmailFolders c2Templ "W" [("M 1", c2Rec)] c2FsEmpty).toOption.getD
    (c2FsEmpty, [], [])

/-- Witness for the amended C2: re-running staging over the records and tree
of a successful first run reproduces them exactly. -/
theorem c2_witness :
    c2Run.2.2.Nodup ∧
      prepEmailFolders c2Templ "W" c2Run.2.1 c2Run.1 =
        .ok (c2Run.1, c2Run.2.1, c2Run.2.2) :=
  ⟨by decide,
   c2_amended c2Templ "W" [("M 1", c2Rec)] c2FsEmpty c2Run.1 c2Run.2.1 c2Run.2.2
     (by decide) rfl⟩
